import Mathlib

/-!
Shallow embedding of `code.py`, an ADS1115 polling script: configuration
register bit-packing, raw-sample sign reconstruction, voltage/pressure
conversion, and an event-trace model of the startup sequence and the
read loop (including the bus-lock discipline).

Machine integers are modelled as `Nat`/`Int`; the script's floats are
modelled as exact rationals (`ℚ`), since every quantity involved is a
finite decimal combined by field operations. Console and bus side
effects are modelled as explicit event traces.
-/

namespace StrainGauge

/-- Fixed device address of the ADS1115 on the bus (`ADS1115_ADDRESS = 0x48`). -/
def ADS1115_ADDRESS : Nat := 0x48

/-- Conversion register pointer (`CONVERSION_REG = 0x00`). -/
def CONVERSION_REG : Nat := 0x00

/-- Configuration register pointer (`CONFIG_REG = 0x01`). -/
def CONFIG_REG : Nat := 0x01

/-- The gain setting selected in the script (`gain_setting = "16"`). -/
def gain_setting : String := "16"

/-- One entry of the script's `gain_map` dictionary: PGA bits and
full-scale voltage in volts. -/
structure GainEntry where
  pga_bits : Nat
  fs_voltage : ℚ
deriving DecidableEq, Repr

/-- The script's `gain_map` dictionary as a lookup function: maps each of
the six recognised gain strings to its PGA bits and full-scale voltage,
and everything else to `none`. -/
def gain_map (g : String) : Option GainEntry :=
  if g = "2/3" then some ⟨0b000, 6.144⟩
  else if g = "1" then some ⟨0b001, 4.096⟩
  else if g = "2" then some ⟨0b010, 2.048⟩
  else if g = "4" then some ⟨0b011, 1.024⟩
  else if g = "8" then some ⟨0b100, 0.512⟩
  else if g = "16" then some ⟨0b101, 0.256⟩
  else none

/-- Data-rate bits, fixed to `0b100` (128 samples per second). -/
def dr_bits : Nat := 0b100

/-- Scale factor in volts per bit: `LSB = fs_voltage / 32767`. -/
def LSB (fs_voltage : ℚ) : ℚ := fs_voltage / 32767

/-- Expected raw ADC count for a 100 mV input: `expected_adc = 0.100 / LSB`. -/
def expected_adc (lsb : ℚ) : ℚ := 0.100 / lsb

/-- The 16-bit configuration word, exactly as the script builds it:
`config_word = (1 << 15) | (0b000 << 12) | (pga_bits << 9) | (0 << 8) | (dr_bits << 5) | 0b11`. -/
def config_word (pga_bits : Nat) : Nat :=
  (1 <<< 15) ||| (0b000 <<< 12) ||| (pga_bits <<< 9) ||| (0 <<< 8) ||| (dr_bits <<< 5) ||| 0b11

/-- Configuration word as the specification writes it, with `dr_bits`
inlined as `0b100`; kept separate from `config_word` so the two can be
compared. -/
def config_word_specform (pga_bits : Nat) : Nat :=
  (1 <<< 15) ||| (0b000 <<< 12) ||| (pga_bits <<< 9) ||| (0 <<< 8) ||| (0b100 <<< 5) ||| 0b11

/-- High configuration byte: `config_high = (config_word >> 8) & 0xFF`. -/
def config_high (w : Nat) : Nat := (w >>> 8) &&& 0xFF

/-- Low configuration byte: `config_low = config_word & 0xFF`. -/
def config_low (w : Nat) : Nat := w &&& 0xFF

/-- Signed 16-bit reconstruction of a raw sample from its two transmitted
bytes, exactly as the script computes it:
`raw_value = (result[0] << 8) | result[1]`, then subtract `1 << 16`
when `raw_value & 0x8000` is nonzero. -/
def raw_value (b0 b1 : Nat) : Int :=
  let r : Nat := (b0 <<< 8) ||| b1
  if r &&& 0x8000 ≠ 0 then (r : Int) - (1 <<< 16) else (r : Int)

/-- Sign reconstruction as the specification words it: combine the two
bytes as a big-endian unsigned 16-bit value, and subtract `2 ^ 16` when
bit 15 of that value is set. -/
def raw_value_specform (b0 b1 : Nat) : Int :=
  let u : Nat := b0 * 256 + b1
  if u.testBit 15 then (u : Int) - 2 ^ 16 else (u : Int)

/-- Measured voltage in volts: `measured_voltage = raw_value * LSB`. -/
def measured_voltage (lsb : ℚ) (raw : Int) : ℚ := (raw : ℚ) * lsb

/-- Measured voltage in millivolts: `voltage_mV = measured_voltage * 1000`. -/
def voltage_mV (lsb : ℚ) (raw : Int) : ℚ := measured_voltage lsb raw * 1000

/-- Reported pressure: `psig = voltage_mV` (identity 1 mV = 1 psig mapping;
the clamping to [0, 100] is commented out in the source and hence absent). -/
def psig (lsb : ℚ) (raw : Int) : ℚ := voltage_mV lsb raw

/-!
Event-trace model of the script's side effects. Console prints are
recorded as `printLine` events carrying a short tag for the line they
correspond to; bus operations carry their address and payload; `sleep`
carries the delay in milliseconds.
-/

/-- One observable side effect of the script. -/
inductive Event where
  | busInit
  | scan
  | tryLock (ok : Bool)
  | unlock
  | write (addr : Nat) (data : List Nat)
  | readInto (addr : Nat) (count : Nat)
  | printLine (tag : String)
  | sleep (ms : Nat)
deriving DecidableEq, Repr

/-- Whether an event is an operation on the two-wire bus (as opposed to
console output or sleeping). -/
def Event.isBusOp : Event → Bool
  | .busInit => true
  | .scan => true
  | .tryLock _ => true
  | .unlock => true
  | .write _ _ => true
  | .readInto _ _ => true
  | .printLine _ => false
  | .sleep _ => false

/-- Bus-lock state after a trace of events, starting from a given state:
`tryLock true` acquires the lock, `unlock` releases it, everything else
leaves it unchanged. -/
def locked_after (start : Bool) : List Event → Bool
  | [] => start
  | .tryLock true :: rest => locked_after true rest
  | .unlock :: rest => locked_after false rest
  | _ :: rest => locked_after start rest

/-- Errors the startup sequence can raise. -/
inductive StartupErr where
  | invalidGain (msg : String)
  | deviceMissing
  | transport
deriving DecidableEq, Repr

/-- The startup sequence of the script (lines 24-81), as a function of the
configured gain string and of the environment's behaviour (whether the
device answers the scan, and whether the configuration write succeeds).
Returns the script's outcome — configuration word and LSB on success,
the raised error otherwise — together with the trace of side effects in
program order. The gain check (line 24) runs before any bus operation;
on a missing device the script prints, unlocks and raises; on a failed
configuration write it prints, unlocks and re-raises; on success it
prints, sleeps 200 ms and unlocks. -/
def startup (g : String) (devicePresent : Bool) (writeOk : Bool) :
    Except StartupErr (Nat × ℚ) × List Event :=
  match gain_map g with
  | none => (.error (.invalidGain "Invalid gain setting. Choose from: 2/3, 1, 2, 4, 8, 16"), [])
  | some e =>
    let w := config_word e.pga_bits
    let banner : List Event :=
      [.printLine "testing differential mode", .printLine "gain setting",
       .printLine "full-scale voltage", .printLine "lsb", .printLine "expected adc",
       .printLine "separator"]
    let opened : List Event :=
      banner ++ [.busInit, .tryLock true, .scan, .printLine "devices found"]
    if !devicePresent then
      (.error .deviceMissing,
       opened ++ [.printLine "ADS1115 not detected", .unlock])
    else if writeOk then
      (.ok (w, LSB e.fs_voltage),
       opened ++ [.write ADS1115_ADDRESS [CONFIG_REG, config_high w, config_low w],
                  .printLine "configuration written", .sleep 200, .unlock])
    else
      (.error .transport,
       opened ++ [.write ADS1115_ADDRESS [CONFIG_REG, config_high w, config_low w],
                  .printLine "I2C error during configuration", .unlock])

/-- Behaviour of the environment during one iteration of the read loop:
either the two bus transfers succeed and yield two bytes, or one of them
raises a transport error. -/
inductive CycleOutcome where
  | ok (b0 b1 : Nat)
  | err
deriving DecidableEq, Repr

/-- Result of one iteration of the read loop. `spin` means the iteration
never gets past `while not i2c.try_lock()` because the lock is already
held; the other two results carry the iteration's event trace and the
lock state it leaves behind. -/
inductive CycleResult where
  | spin
  | sample (raw : Int) (events : List Event) (locked : Bool)
  | retry (events : List Event) (locked : Bool)
deriving DecidableEq, Repr

/-- One iteration of the script's read loop (lines 84-117), as a function
of the lock state left by the previous iteration and the environment's
behaviour. On success: acquire the lock, write the conversion-register
pointer, read two bytes, unlock, print the sample, sleep 1000 ms. On a
transport error the `except` handler runs: print, sleep 1000 ms,
`continue` — it contains no `unlock`, so the lock stays held. If the
lock is still held on entry, `try_lock` can never succeed (the script is
single-threaded) and the iteration spins forever. -/
def read_cycle (locked : Bool) (out : CycleOutcome) : CycleResult :=
  if locked then .spin
  else
    match out with
    | .ok b0 b1 =>
      .sample (raw_value b0 b1)
        [.tryLock true, .write ADS1115_ADDRESS [CONVERSION_REG],
         .readInto ADS1115_ADDRESS 2, .unlock,
         .printLine "raw voltage pressure", .sleep 1000]
        false
    | .err =>
      .retry
        [.tryLock true, .write ADS1115_ADDRESS [CONVERSION_REG],
         .printLine "I2C error during read", .sleep 1000]
        true

/-- The read loop run against a finite prefix of environment behaviours:
returns the concatenated event trace, the final lock state, and how many
samples were actually read and reported. A spinning iteration produces
nothing and consumes the rest of the schedule (the script is stuck in
the `try_lock` loop forever). -/
def run_loop (locked : Bool) : List CycleOutcome → List Event × Bool × Nat
  | [] => ([], locked, 0)
  | out :: rest =>
    match read_cycle locked out with
    | .spin => ([], locked, 0)
    | .sample _ evs l =>
      let (evs2, l2, n) := run_loop l rest
      (evs ++ evs2, l2, n + 1)
    | .retry evs l =>
      let (evs2, l2, n) := run_loop l rest
      (evs ++ evs2, l2, n)

/-!
Helper lemmas for the sign-reconstruction arithmetic.
-/

/-- Combining a high byte shifted left by 8 with a low byte below 256 by
bitwise or is the same as big-endian positional addition. -/
theorem shiftLeft_eight_or (b0 b1 : Nat) (h1 : b1 < 256) :
    (b0 <<< 8) ||| b1 = b0 * 256 + b1 := by
  have h := Nat.mul_add_lt_is_or (i := 8) (b := b1) (by simpa using h1) b0
  rw [Nat.shiftLeft_eq, Nat.mul_comm, ← h, Nat.mul_comm]

/-- Masking with `0x8000` extracts bit 15. -/
theorem and_top_bit (r : Nat) : r &&& 0x8000 = (r.testBit 15).toNat * 32768 := by
  have h := Nat.and_two_pow r 15
  norm_num at h
  exact h

/-- For a 16-bit value, bit 15 is set exactly when the value is at least
`32768`. -/
theorem testBit15_iff (x : Nat) (hx : x < 65536) :
    x.testBit 15 = true ↔ 32768 ≤ x := by
  rw [Nat.testBit_to_div_mod]
  norm_num
  omega

/-!
Claim theorems.
-/

/-- C1: for every valid gain setting (one of the six strings with its
`pga_bits` from the gain map), the 16-bit configuration word the code
builds equals the specification's formula
`(1<<15) | (0b000<<12) | (pga_bits<<9) | (0<<8) | (dr_bits<<5) | 0b11`
with `dr_bits = 0b100`, fits in 16 bits, and is split into a high byte
holding bits 15-8 and a low byte holding bits 7-0. -/
theorem claim_C1_config_word_encoding (g : String) (e : GainEntry)
    (h : gain_map g = some e) :
    config_word e.pga_bits = config_word_specform e.pga_bits ∧
    config_word e.pga_bits < 2 ^ 16 ∧
    config_high (config_word e.pga_bits) = config_word e.pga_bits / 2 ^ 8 % 2 ^ 8 ∧
    config_low (config_word e.pga_bits) = config_word e.pga_bits % 2 ^ 8 ∧
    config_high (config_word e.pga_bits) * 2 ^ 8 + config_low (config_word e.pga_bits)
      = config_word e.pga_bits := by
  unfold gain_map at h
  split_ifs at h <;> first
    | (injection h with h; subst h; decide)
    | exact Option.noConfusion h

/-- C1 witness: the theorem applied to the gain setting `"16"`. -/
theorem claim_C1_config_word_encoding_witness :
    gain_map "16" = some ⟨0b101, 0.256⟩ ∧
    config_word (GainEntry.mk 0b101 0.256).pga_bits
      = config_word_specform (GainEntry.mk 0b101 0.256).pga_bits :=
  ⟨rfl, (claim_C1_config_word_encoding "16" ⟨0b101, 0.256⟩ rfl).1⟩

/-- C2 counterexample: the configuration word the code computes for gain
`"16"` (`pga_bits = 0b101`) is not `0x8FE3` as the claim states. -/
theorem claim_C2_counterexample :
    gain_map "16" = some ⟨0b101, 0.256⟩ ∧ config_word 0b101 ≠ 0x8FE3 :=
  ⟨rfl, by decide⟩

/-- C2 (amended): for gain setting `"16"` (`pga_bits = 0b101`), the
computed configuration word equals `0x8A83`, and splitting it gives high
byte `0x8A` and low byte `0x83`. -/
theorem claim_C2_amended_gain16_word :
    gain_map "16" = some ⟨0b101, 0.256⟩ ∧
    config_word 0b101 = 0x8A83 ∧
    config_high (config_word 0b101) = 0x8A ∧
    config_low (config_word 0b101) = 0x83 :=
  ⟨rfl, by decide, by decide, by decide⟩

/-- C3: for every pair of input bytes, the raw sample is reconstructed by
combining them as a big-endian unsigned 16-bit value and subtracting
`2 ^ 16` when bit 15 is set, the result lies in `[-32768, 32767]`, and
the four listed byte pairs give `-1`, `1`, `-32768` and `32767`. -/
theorem claim_C3_sign_reconstruction (b0 b1 : Nat) (h0 : b0 < 256) (h1 : b1 < 256) :
    (raw_value b0 b1 = raw_value_specform b0 b1 ∧
     -32768 ≤ raw_value b0 b1 ∧ raw_value b0 b1 ≤ 32767) ∧
    raw_value 0xFF 0xFF = -1 ∧ raw_value 0x00 0x01 = 1 ∧
    raw_value 0x80 0x00 = -32768 ∧ raw_value 0x7F 0xFF = 32767 := by
  refine ⟨?_, by decide, by decide, by decide, by decide⟩
  unfold raw_value raw_value_specform
  simp only [shiftLeft_eight_or b0 b1 h1, and_top_bit]
  have hu : b0 * 256 + b1 < 65536 := by omega
  rcases hb : (b0 * 256 + b1).testBit 15 with _ | _
  · have hlt : b0 * 256 + b1 < 32768 := by
      by_contra hge
      have ht : (b0 * 256 + b1).testBit 15 = true := (testBit15_iff _ hu).mpr (by omega)
      rw [ht] at hb
      cases hb
    simp only [hb, Bool.toNat_false, Nat.zero_mul, ne_eq, not_true_eq_false]
    simp [Nat.shiftLeft_eq]
    omega
  · have h32 : 32768 ≤ b0 * 256 + b1 := (testBit15_iff _ hu).mp hb
    simp only [hb, Bool.toNat_true, Nat.one_mul]
    simp [Nat.shiftLeft_eq]
    omega

/-- C3 witness: the theorem applied to the byte pair `(0x80, 0x00)`. -/
theorem claim_C3_sign_reconstruction_witness :
    (0x80 : Nat) < 256 ∧ (0x00 : Nat) < 256 ∧
    raw_value 0x80 0x00 = raw_value_specform 0x80 0x00 :=
  ⟨by decide, by decide,
   (claim_C3_sign_reconstruction 0x80 0x00 (by decide) (by decide)).1.1⟩

/-- C4: for every valid gain setting and every reconstructed raw value,
the reported pressure reading equals `raw * LSB * 1000` (volts scaled to
millivolts with the identity 1 mV = 1 unit mapping), and no clamping to
`[0, 100]` is applied: a negative raw value yields a negative reading and
a full-scale raw value yields a reading above 100. -/
theorem claim_C4_pressure_no_clamp (g : String) (e : GainEntry)
    (h : gain_map g = some e) :
    (∀ raw : Int, psig (LSB e.fs_voltage) raw = (raw : ℚ) * LSB e.fs_voltage * 1000) ∧
    psig (LSB e.fs_voltage) (-1) < 0 ∧
    100 < psig (LSB e.fs_voltage) 32767 := by
  unfold gain_map at h
  split_ifs at h <;> first
    | (injection h with h; subst h;
       exact ⟨fun raw => rfl,
         by norm_num [psig, voltage_mV, measured_voltage, LSB],
         by norm_num [psig, voltage_mV, measured_voltage, LSB]⟩)
    | exact Option.noConfusion h

/-- C4 witness: the theorem applied to the gain setting `"1"`. -/
theorem claim_C4_pressure_no_clamp_witness :
    gain_map "1" = some ⟨0b001, 4.096⟩ ∧
    psig (LSB (GainEntry.mk 0b001 4.096).fs_voltage) (-1) < 0 :=
  ⟨rfl, (claim_C4_pressure_no_clamp "1" ⟨0b001, 4.096⟩ rfl).2.1⟩

/-- C5: if the configured gain string is not one of the six enumerated
settings, startup raises the invalid-gain configuration error, and its
trace is empty — in particular no bus operation (initialization, scan,
lock, write or read) is ever attempted. -/
theorem claim_C5_invalid_gain_before_bus (g : String) (d w : Bool)
    (h : gain_map g = none) :
    (startup g d w).1
      = .error (.invalidGain "Invalid gain setting. Choose from: 2/3, 1, 2, 4, 8, 16") ∧
    (startup g d w).2 = [] ∧
    ∀ ev ∈ (startup g d w).2, ev.isBusOp = false := by
  unfold startup
  rw [h]
  exact ⟨rfl, rfl, by simp⟩

/-- C5 witness: the theorem applied to the invalid gain string `"3"`. -/
theorem claim_C5_invalid_gain_before_bus_witness :
    gain_map "3" = none ∧ (startup "3" true true).2 = [] :=
  ⟨rfl, (claim_C5_invalid_gain_before_bus "3" true true rfl).2.1⟩

/-- C6: for every valid gain setting, the scale factor equals
`full_scale_voltage / 32767` and is strictly positive. -/
theorem claim_C6_lsb_positive (g : String) (e : GainEntry)
    (h : gain_map g = some e) :
    LSB e.fs_voltage = e.fs_voltage / 32767 ∧ 0 < LSB e.fs_voltage := by
  unfold gain_map at h
  split_ifs at h <;> first
    | (injection h with h; subst h; exact ⟨rfl, by norm_num [LSB]⟩)
    | exact Option.noConfusion h

/-- C6 witness: the theorem applied to the gain setting `"2/3"`. -/
theorem claim_C6_lsb_positive_witness :
    gain_map "2/3" = some ⟨0b000, 6.144⟩ ∧
    0 < LSB (GainEntry.mk 0b000 6.144).fs_voltage :=
  ⟨rfl, (claim_C6_lsb_positive "2/3" ⟨0b000, 6.144⟩ rfl).2⟩

/-- C7: for gain setting `"1"` the full-scale voltage is 4.096 V, the
scale factor is approximately `0.000125009` V/bit (within the code's own
print precision of `10 ^ (-8)`), and the expected raw ADC count for a
100 mV input, `0.100 / LSB`, is approximately 799 (within one count). -/
theorem claim_C7_gain1_numbers :
    gain_map "1" = some ⟨0b001, 4.096⟩ ∧
    |LSB 4.096 - 0.000125009| < 1 / 100000000 ∧
    |expected_adc (LSB 4.096) - 799| ≤ 1 := by
  refine ⟨rfl, ?_, ?_⟩
  · rw [abs_lt]; constructor <;> norm_num [LSB]
  · rw [abs_le]; constructor <;> norm_num [expected_adc, LSB]

/-- C8: evaluation of the error handling at its two failure points. The
configuration-write half of the claim holds: a transport error during the
configuration write yields the propagated transport error, the bus lock
is released before the error propagates (the unlock is the trace's last
event), and the write is attempted exactly once (no retry). The
read-cycle half fails on the code: the error is logged and followed by
the fixed 1000 ms delay with no configuration write, but the handler
leaves the bus lock held, so every subsequent cycle spins forever in
`try_lock` and no read is ever performed again — the error is not
recoverable and the read is never retried. -/
theorem claim_C8_transport_error_paths :
    (startup "16" true false).1 = Except.error StartupErr.transport ∧
    (startup "16" true false).2.getLast? = some Event.unlock ∧
    ((startup "16" true false).2.countP fun ev =>
      match ev with | Event.write _ _ => true | _ => false) = 1 ∧
    read_cycle false CycleOutcome.err =
      CycleResult.retry
        [Event.tryLock true, Event.write ADS1115_ADDRESS [CONVERSION_REG],
         Event.printLine "I2C error during read", Event.sleep 1000] true ∧
    ([Event.tryLock true, Event.write ADS1115_ADDRESS [CONVERSION_REG],
      Event.printLine "I2C error during read", Event.sleep 1000].countP fun ev =>
        match ev with | Event.write _ (0x01 :: _) => true | _ => false) = 0 ∧
    (run_loop false [CycleOutcome.err, CycleOutcome.ok 0 1, CycleOutcome.ok 2 3]).2.2 = 0 := by
  refine ⟨rfl, by decide, by decide, by decide, by decide, by decide⟩

/-- C9: evaluation of the bus-lock discipline on every exit path. The
configuration transaction does release the lock on all three of its exit
paths (success, device missing, transport error during the write), and a
successful read cycle releases it too; but a read cycle that ends in a
transport error leaves the lock held (`locked = true` in its result), and
once the lock is held every later cycle spins in `try_lock` without ever
reaching the bus — refuting the claim that the lock is never still held
when a transaction ends. -/
theorem claim_C9_lock_discipline :
    locked_after false (startup "16" true true).2 = false ∧
    locked_after false (startup "16" true false).2 = false ∧
    locked_after false (startup "16" false true).2 = false ∧
    read_cycle false (CycleOutcome.ok 0 1) =
      CycleResult.sample (raw_value 0 1)
        [Event.tryLock true, Event.write ADS1115_ADDRESS [CONVERSION_REG],
         Event.readInto ADS1115_ADDRESS 2, Event.unlock,
         Event.printLine "raw voltage pressure", Event.sleep 1000] false ∧
    read_cycle false CycleOutcome.err =
      CycleResult.retry
        [Event.tryLock true, Event.write ADS1115_ADDRESS [CONVERSION_REG],
         Event.printLine "I2C error during read", Event.sleep 1000] true ∧
    locked_after false
        [Event.tryLock true, Event.write ADS1115_ADDRESS [CONVERSION_REG],
         Event.printLine "I2C error during read", Event.sleep 1000] = true ∧
    read_cycle true (CycleOutcome.ok 0 1) = CycleResult.spin ∧
    read_cycle true CycleOutcome.err = CycleResult.spin := by
  refine ⟨by decide, by decide, by decide, by decide, by decide, by decide, by decide,
    by decide⟩

/-- C10: for every valid gain setting the configuration word fits in 16
bits, its low byte is the gain-independent constant
`(dr_bits <<< 5) ||| 0b11 = 0x83`, the word is the fixed pattern `0x8083`
together with the PGA bits at positions 11-9, those positions hold
exactly `pga_bits`, and the shifted PGA bits do not touch the low byte. -/
theorem claim_C10_low_byte_constant (g : String) (e : GainEntry)
    (h : gain_map g = some e) :
    config_word e.pga_bits < 2 ^ 16 ∧
    config_low (config_word e.pga_bits) = (dr_bits <<< 5) ||| 0b11 ∧
    (dr_bits <<< 5) ||| 0b11 = 0x83 ∧
    config_word e.pga_bits = 0x8083 ||| (e.pga_bits <<< 9) ∧
    (config_word e.pga_bits >>> 9) &&& 0b111 = e.pga_bits ∧
    (e.pga_bits <<< 9) &&& 0xFF = 0 := by
  unfold gain_map at h
  split_ifs at h <;> first
    | (injection h with h; subst h; decide)
    | exact Option.noConfusion h

/-- C10 witness: the theorem applied to the gain setting `"8"`. -/
theorem claim_C10_low_byte_constant_witness :
    gain_map "8" = some ⟨0b100, 0.512⟩ ∧
    config_low (config_word (GainEntry.mk 0b100 0.512).pga_bits) = (dr_bits <<< 5) ||| 0b11 :=
  ⟨rfl, (claim_C10_low_byte_constant "8" ⟨0b100, 0.512⟩ rfl).2.1⟩

end StrainGauge
